import Mathlib

/-!
Verification of the design-builder engine (`nautobot_design_builder/design.py`).

This file gives a shallow embedding of the design-interpretation engine:
the `Journal` provenance ledger, the `ModelInstance` node resolver
(attribute parsing, load-or-create, field application, save), and the
`Builder` orchestrator (`implement_design`, value resolution, the extension
registry with its lazy instantiation and commit/roll-back broadcast).

Conventions of the embedding:

* Python dicts are insertion-ordered association lists (`dictGet`,
  `dictSet`, `dictPop`, `dictUpdate` mirror `d[k]`, `d[k] = v`,
  `d.pop(k)`, `d.update(m)`).
* Python exceptions become an explicit `PyError` value threaded through
  `Except`.
* The external object store (Django ORM) is modelled per the engine's
  consumed capability interface: a list of saved records with integer
  primary keys, `dbGet` for `objects.get(**filter)` and `dbSave` for
  `instance.save()`.
* Unbounded recursion (a node constructing child nodes) is driven by an
  explicit fuel parameter; running out of fuel yields the distinguished
  error `PyError.fuelExhausted`, which never occurs for the concrete
  inputs evaluated below.
-/

set_option autoImplicit false

namespace DesignBuilder

/-- Python exception taxonomy as observed by the engine.  The
`designImplementationError`, `designValidationError`, `doesNotExistError`
and `multipleObjectsReturnedError` constructors correspond to the classes
of the repository's `errors` module; `objectDoesNotExist` /
`multipleObjectsReturned` are the store-level (Django) exceptions;
`valueError`, `keyError`, `indexError`, `typeError`, `attributeError` are
plain Python exceptions raised by primitive operations. -/
inductive PyError where
  | designImplementationError (msg : String)
  | designValidationError
  | doesNotExistError
  | multipleObjectsReturnedError
  | objectDoesNotExist
  | multipleObjectsReturned
  | valueError (msg : String)
  | keyError
  | indexError
  | typeError
  | attributeError
  | fuelExhausted
deriving DecidableEq, Repr

/-- Design values: the scalar/list/mapping universe a rendered design
contains, plus the two run-time shapes the engine itself introduces:
`modelInst pk` (a `ModelInstance` wrapper object whose backing record has
primary key `pk`) and `record pk` (a bare store record). -/
inductive DVal where
  | str (s : String)
  | int (n : Int)
  | bool (b : Bool)
  | map (entries : List (String × DVal))
  | list (items : List DVal)
  | modelInst (pk : Nat)
  | record (pk : Nat)
deriving Repr

mutual

/-- Structural equality on design values (Python `==` as used by the
store's filter matching). -/
def DVal.beq : DVal → DVal → Bool
  | .str a, .str b => a = b
  | .int a, .int b => a = b
  | .bool a, .bool b => a = b
  | .map a, .map b => DVal.beqEntries a b
  | .list a, .list b => DVal.beqList a b
  | .modelInst a, .modelInst b => a = b
  | .record a, .record b => a = b
  | _, _ => false

/-- Equality on mapping entries, pointwise and in order. -/
def DVal.beqEntries : List (String × DVal) → List (String × DVal) → Bool
  | [], [] => true
  | (k, v) :: r, (k', v') :: r' => k = k' && DVal.beq v v' && DVal.beqEntries r r'
  | _, _ => false

/-- Equality on value lists, pointwise and in order. -/
def DVal.beqList : List DVal → List DVal → Bool
  | [], [] => true
  | v :: r, v' :: r' => DVal.beq v v' && DVal.beqList r r'
  | _, _ => false

end

/-- `True` for values that are neither mappings, lists nor model/record
references (plain scalars). -/
def DVal.isScalar : DVal → Bool
  | .str _ => true
  | .int _ => true
  | .bool _ => true
  | _ => false

/-- `isinstance(value, Mapping)`. -/
def DVal.isMap : DVal → Bool
  | .map _ => true
  | _ => false

section Dict

variable {α : Type}

/-- `d[k]` / `d.get(k)` on an insertion-ordered dict. -/
def dictGet (d : List (String × α)) (k : String) : Option α :=
  (d.find? (fun kv => kv.1 = k)).map (fun kv => kv.2)

/-- `d[k] = v`: replace in place if the key exists, else append. -/
def dictSet (d : List (String × α)) (k : String) (v : α) : List (String × α) :=
  if (d.find? (fun kv => kv.1 = k)).isSome then
    d.map (fun kv => if kv.1 = k then (k, v) else kv)
  else
    d ++ [(k, v)]

/-- `d.pop(k, None)`: the dict without `k`, and the value that was there. -/
def dictPop (d : List (String × α)) (k : String) : List (String × α) × Option α :=
  (d.filter (fun kv => kv.1 ≠ k), dictGet d k)

/-- `d.update(m)`. -/
def dictUpdate (d m : List (String × α)) : List (String × α) :=
  m.foldl (fun acc kv => dictSet acc kv.1 kv.2) d

end Dict

section PyString

/-- One step of `s.split(":", 1)` over the character list: `some (a, b)`
when a colon occurs (`a` before the first colon, `b` after), `none` when
the string holds no colon. -/
def splitOnceColon : List Char → Option (List Char × List Char)
  | [] => none
  | c :: rest =>
    if c = ':' then some ([], rest)
    else (splitOnceColon rest).map (fun p => (c :: p.1, p.2))

/-- Accumulator worker for `splitColonAll`. -/
def splitColonAllAux : List Char → List Char → List String
  | acc, [] => [String.mk acc.reverse]
  | acc, c :: rest =>
    if c = ':' then String.mk acc.reverse :: splitColonAllAux [] rest
    else splitColonAllAux (c :: acc) rest

/-- `s.split(":")` (all pieces) over the character list; never empty. -/
def splitColonAll (cs : List Char) : List String :=
  splitColonAllAux [] cs

/-- `s.split("__", 1)`: position of the first `"__"` occurrence. -/
def splitDunder : List Char → Option (List Char × List Char)
  | '_' :: '_' :: rest => some ([], rest)
  | c :: rest => (splitDunder rest).map (fun p => (c :: p.1, p.2))
  | [] => none

/-- `s.lstrip("!")`. -/
def lstripBang (s : String) : List Char :=
  s.data.dropWhile (fun c => c = '!')

/-- `s.startswith("!")`. -/
def pyStartsWithBang (s : String) : Bool :=
  match s.data with
  | '!' :: _ => true
  | _ => false

end PyString

/-! ## Journal (`design.py`, class `Journal`)

Record types are identified by their class name, primary keys by `Nat`.
Python sets are modelled by lists with add-if-absent insertion. -/

/-- The provenance ledger: `index` is the set of all logged primary keys,
`created`/`updated` map a model type to the set of primary keys logged
under that flag. -/
structure Journal where
  index : List Nat
  created : List (String × List Nat)
  updated : List (String × List Nat)
deriving DecidableEq, Repr

namespace Journal

/-- `Journal.__init__`. -/
def empty : Journal := ⟨[], [], []⟩

/-- `index.setdefault(model_type, set()); index[model_type].add(pk)`. -/
def addToTypeIndex (d : List (String × List Nat)) (ty : String) (pk : Nat) :
    List (String × List Nat) :=
  match dictGet d ty with
  | none => dictSet d ty [pk]
  | some ps => dictSet d ty (if pk ∈ ps then ps else ps ++ [pk])

/-- `Journal.log(model)`: `model_type` is the backing record's class,
`pk` its primary key, `created` the node's `_created` flag at log time.
A primary key already in `index` leaves the journal untouched. -/
def log (j : Journal) (modelType : String) (pk : Nat) (created : Bool) : Journal :=
  if pk ∈ j.index then j
  else
    { index := j.index ++ [pk]
      created := if created then addToTypeIndex j.created modelType pk else j.created
      updated := if created then j.updated else addToTypeIndex j.updated modelType pk }

/-- All primary keys present in a `created`/`updated` type index. -/
def pksOf : List (String × List Nat) → List Nat
  | [] => []
  | kv :: rest => kv.2 ++ pksOf rest

/-- Replay a sequence of `log` calls (model type, primary key, flag). -/
def applyLogs (j : Journal) (ls : List (String × Nat × Bool)) : Journal :=
  ls.foldl (fun acc l => acc.log l.1 l.2.1 l.2.2) j

end Journal

/-! ## Model classes and the Builder configuration

`ModelClass.factory` turns every field of the reflected store type into a
class-level descriptor, so `hasattr` on the node class holds exactly for
the declared field names (plus the fixed `ModelInstance` machinery
names).  The store's schema reflection is out of scope per the spec, so a
class is its name, its declared field names, the names accepted as extra
constructor keyword arguments (settable non-field properties), and the
relationship fields with the class name of their target. -/

structure MClass where
  name : String
  fields : List String
  props : List String
  related : List (String × String)
deriving DecidableEq, Repr

/-- Names that exist on every `ModelInstance` object besides the field
descriptors (constants, constructor state and methods of the
`ModelClass`/`ModelInstance` classes). -/
def modelInstanceAttrNames : List String :=
  ["name", "model_class", "deferred", "GET", "CREATE", "UPDATE",
   "CREATE_OR_UPDATE", "ACTION_CHOICES", "PRE_SAVE", "POST_INSTANCE_SAVE",
   "POST_SAVE", "creator", "instance", "attributes", "signals",
   "relationship_manager", "factory", "refresh_custom_relationships",
   "create_child", "connect", "save", "set_custom_field"]

/-- `hasattr(self, key)` for a node object: a declared field descriptor or
one of the fixed machinery names. -/
def hasattrSelf (cls : MClass) (key : String) : Bool :=
  key ∈ cls.fields || key ∈ modelInstanceAttrNames

/-- `hasattr(self.__class__, field_name)`: class-level names only (field
descriptors plus class constants and methods, not per-object state). -/
def hasattrNodeClass (cls : MClass) (key : String) : Bool :=
  key ∈ cls.fields ||
    key ∈ ["name", "model_class", "deferred", "GET", "CREATE", "UPDATE",
           "CREATE_OR_UPDATE", "ACTION_CHOICES", "PRE_SAVE",
           "POST_INSTANCE_SAVE", "POST_SAVE", "factory",
           "refresh_custom_relationships", "create_child", "connect",
           "save", "set_custom_field"]

/-- `hasattr(self.model_class, fieldname)` / `hasattr(self.instance, f)`:
the reflected store type exposes its declared fields. -/
def hasattrModelClass (cls : MClass) (key : String) : Bool :=
  key ∈ cls.fields

/-- Result of an attribute extension's `attribute(...)` call, following
the `isinstance` dispatch in `_parse_attributes`: a `(name, value)`
tuple, a mapping, `None`, or an unsupported type. -/
inductive AttrResult where
  | tuple (key : String) (val : DVal)
  | mapping (entries : List (String × DVal))
  | noneResult
  | unsupported
deriving Repr

/-- The Builder's configuration: the record-type registry (`model_map`,
keyed by plural name) and the registered extension behaviours.  Attribute
extensions receive the directive arguments after the tag and the resolved
value; value extensions receive the single argument string.  (Extension
objects also carry lazy-instantiation state, modelled separately by
`ExtRegistry` for the commit/roll-back broadcast.) -/
structure Builder where
  model_map : List (String × MClass)
  attrExt : String → Option (List String → DVal → AttrResult)
  valExt : String → Option (String → DVal)

/-- `model_class_index[django_class]`: recover the wrapped class by the
store type's name. -/
def Builder.classByName (b : Builder) (n : String) : Option MClass :=
  (b.model_map.map (fun kv => kv.2)).find? (fun c => c.name = n)

/-! ## Value resolution (`Builder.resolve_value` / `resolve_values`)

Two embeddings of the same two source methods:

* `resolve_value` / `resolve_values` over `DVal`, used by the node
  resolver embedding (object identity is irrelevant there);
* `resolveValueH` / `resolveValuesH` over an explicit heap of list/dict
  objects, which makes Python object identity visible so that the
  "inputs are never mutated in place" frame property is a real statement.
-/

/-- `Builder.resolve_value`: a string `"!tag:arg"` dispatches to the value
extension registered for `tag`; `lstrip("!")` then `split(":", 1)` —
unpacking the split into two names raises `ValueError` when no colon is
present; an unregistered tag raises the unknown-extension
`DesignImplementationError`; every non-string value passes through. -/
def Builder.resolve_value (b : Builder) (v : DVal) : Except PyError DVal :=
  match v with
  | .str s =>
    if pyStartsWithBang s then
      match splitOnceColon (lstripBang s) with
      | some (action, arg) =>
        match b.valExt (String.mk action) with
        | some f => .ok (f (String.mk arg))
        | none => .error (.designImplementationError
            ("Unknown attribute extension " ++ s))
      | none => .error (.valueError "not enough values to unpack")
    else .ok (.str s)
  | v => .ok v

/-- Element-wise `resolve_value` over a list (the loop body of
`resolve_values` on a list copy). -/
def Builder.resolveList (b : Builder) : List DVal → Except PyError (List DVal)
  | [] => .ok []
  | v :: rest => do
    let v' ← b.resolve_value v
    let rest' ← b.resolveList rest
    .ok (v' :: rest')

/-- Element-wise `resolve_value` over dict values (the loop body of
`resolve_values` on a dict copy). -/
def Builder.resolveEntries (b : Builder) :
    List (String × DVal) → Except PyError (List (String × DVal))
  | [] => .ok []
  | (k, v) :: rest => do
    let v' ← b.resolve_value v
    let rest' ← b.resolveEntries rest
    .ok ((k, v') :: rest')

/-- `Builder.resolve_values`: strings go through `resolve_value`, lists
and dicts are resolved element-wise (over a copy — identity is out of
scope in this pure embedding), everything else passes through. -/
def Builder.resolve_values (b : Builder) (v : DVal) : Except PyError DVal :=
  match v with
  | .str s => b.resolve_value (.str s)
  | .list items => do
    let items' ← b.resolveList items
    .ok (.list items')
  | .map entries => do
    let entries' ← b.resolveEntries entries
    .ok (.map entries')
  | v => .ok v

/-! ### Heap-instrumented model for the frame property -/

/-- A heap value: a scalar, or a reference to a list/dict object. -/
inductive HVal where
  | str (s : String)
  | int (n : Int)
  | ref (addr : Nat)
deriving DecidableEq, Repr

/-- A heap object: a Python list or dict. -/
inductive HObj where
  | arr (items : List HVal)
  | dict (entries : List (String × HVal))
deriving DecidableEq, Repr

/-- The heap: allocated objects by address plus the next fresh address. -/
structure Heap where
  objs : List (Nat × HObj)
  nextAddr : Nat
deriving DecidableEq, Repr

/-- Address lookup. -/
def Heap.lookup (h : Heap) (a : Nat) : Option HObj :=
  (h.objs.find? (fun kv => kv.1 = a)).map (fun kv => kv.2)

/-- Allocate a fresh object, returning its address. -/
def Heap.alloc (h : Heap) (o : HObj) : Heap × Nat :=
  ({ objs := h.objs ++ [(h.nextAddr, o)], nextAddr := h.nextAddr + 1 },
   h.nextAddr)

/-- Every allocated address is below `nextAddr` (true of every heap built
by `alloc` from the empty heap). -/
def Heap.wf (h : Heap) : Prop :=
  ∀ p ∈ h.objs, p.1 < h.nextAddr

instance (h : Heap) : Decidable h.wf := by
  unfold Heap.wf; infer_instance

/-- `Builder.resolve_value` over heap values: identical dispatch to
`resolve_value`; only strings are examined, references pass through
untouched. -/
def resolveValueH (vx : String → Option (String → HVal)) (v : HVal) :
    Except PyError HVal :=
  match v with
  | .str s =>
    if pyStartsWithBang s then
      match splitOnceColon (lstripBang s) with
      | some (action, arg) =>
        match vx (String.mk action) with
        | some f => .ok (f (String.mk arg))
        | none => .error (.designImplementationError
            ("Unknown attribute extension " ++ s))
      | none => .error (.valueError "not enough values to unpack")
    else .ok (.str s)
  | v => .ok v

/-- The list copy loop: `value = list(value); value[i] = resolve_value(item)`. -/
def resolveListH (vx : String → Option (String → HVal)) :
    List HVal → Except PyError (List HVal)
  | [] => .ok []
  | v :: rest => do
    let v' ← resolveValueH vx v
    let rest' ← resolveListH vx rest
    .ok (v' :: rest')

/-- The dict copy loop: `value = dict(value); value[k] = resolve_value(item)`. -/
def resolveEntriesH (vx : String → Option (String → HVal)) :
    List (String × HVal) → Except PyError (List (String × HVal))
  | [] => .ok []
  | (k, v) :: rest => do
    let v' ← resolveValueH vx v
    let rest' ← resolveEntriesH vx rest
    .ok ((k, v') :: rest')

/-- `Builder.resolve_values` with explicit object identity: a string is
resolved in place (no allocation); a reference to a list/dict object is
resolved element-wise into a freshly allocated copy (`list(value)` /
`dict(value)`), leaving the referenced input object untouched; any other
value passes through. -/
def resolveValuesH (vx : String → Option (String → HVal)) (h : Heap) :
    HVal → Except PyError (Heap × HVal)
  | .str s =>
    match resolveValueH vx (.str s) with
    | .ok v' => .ok (h, v')
    | .error e => .error e
  | .ref a =>
    match h.lookup a with
    | some (.arr items) =>
      match resolveListH vx items with
      | .ok items' =>
        .ok ((h.alloc (.arr items')).1, .ref (h.alloc (.arr items')).2)
      | .error e => .error e
    | some (.dict entries) =>
      match resolveEntriesH vx entries with
      | .ok entries' =>
        .ok ((h.alloc (.dict entries')).1, .ref (h.alloc (.dict entries')).2)
      | .error e => .error e
    | none => .ok (h, .ref a)
  | .int n => .ok (h, .int n)

/-! ## The external store

The engine consumes the store through lookup-by-criteria, construct,
save, refresh and schema reflection (spec §1/§6).  A saved record has a
primary key, a type name, its field values and its custom-field data; an
in-memory instance additionally may be unsaved (`pk = none`,
`_state.adding`). -/

/-- A saved store record. -/
structure Rec where
  pk : Nat
  cls : String
  flds : List (String × DVal)
  cf : List (String × DVal)
deriving Repr

/-- An in-memory record instance (`self.instance`): `pk = none` until the
first save (`_state.adding` mirrors Django's flag). -/
structure Inst where
  pk : Option Nat
  cls : String
  flds : List (String × DVal)
  cf : List (String × DVal)
  adding : Bool
deriving Repr

/-- The store: saved records plus the next primary key to assign. -/
structure DB where
  recs : List Rec
  nextPk : Nat
deriving Repr

/-- Outcome of `objects.get(**query)`. -/
inductive GetResult where
  | found (r : Rec)
  | doesNotExist
  | multipleReturned
deriving Repr

/-- A record matches a query when every criterion equals the record's
stored value for that field. -/
def recMatches (r : Rec) (query : List (String × DVal)) : Bool :=
  query.all (fun kv =>
    match dictGet r.flds kv.1 with
    | some w => DVal.beq w kv.2
    | none => false)

/-- `manager.get(**query)` against the records of class `cls`:
exactly one match or a store-level exception. -/
def dbGet (db : DB) (cls : String) (query : List (String × DVal)) : GetResult :=
  match db.recs.filter (fun r => r.cls = cls && recMatches r query) with
  | [] => .doesNotExist
  | [r] => .found r
  | _ => .multipleReturned

/-- View a fetched record as an in-memory instance. -/
def Rec.toInst (r : Rec) : Inst :=
  { pk := some r.pk, cls := r.cls, flds := r.flds, cf := r.cf, adding := false }

/-- `instance.save()`: an unsaved instance is inserted under a fresh
primary key; a saved one overwrites the stored record with the same key,
leaving its identity unchanged. -/
def dbSave (db : DB) (i : Inst) : DB × Inst :=
  match i.pk with
  | none =>
    let pk := db.nextPk
    ({ recs := db.recs ++ [⟨pk, i.cls, i.flds, i.cf⟩], nextPk := pk + 1 },
     { i with pk := some pk, adding := false })
  | some pk =>
    ({ db with recs :=
        db.recs.map (fun r => if r.pk = pk then ⟨pk, i.cls, i.flds, i.cf⟩ else r) },
     { i with adding := false })

/-- State shared by every node during one traversal: the store and the
Journal (`self.creator.journal`). -/
structure BState where
  db : DB
  journal : Journal
deriving Repr

/-! ## Node resolver: `ModelInstance._parse_attributes` -/

/-- Mutable parser state: the shrinking/growing attribute dict
(`self.attributes`), the filter criteria (`self._filter`), the action
(`self._action`) and the constructor kwargs (`self._kwargs`). -/
structure ParseSt where
  attributes : List (String × DVal)
  filter : List (String × DVal)
  action : Option String
  kwargs : List (String × DVal)
deriving Repr

/-- A fully parsed node before load-or-create. -/
structure NodeState where
  attributes : List (String × DVal)
  custom_fields : List (String × DVal)
  filter : List (String × DVal)
  action : String
  kwargs : List (String × DVal)
deriving Repr

/-- The `while attribute_names:` loop of `_parse_attributes`.  Fuel bounds
the queue, which attribute extensions may extend (`attribute_names.extend`);
with no attribute extensions each initial key is processed exactly once. -/
def parseLoop (b : Builder) (cls : MClass) :
    Nat → List String → ParseSt → Except PyError ParseSt
  | _, [], st => .ok st
  | 0, _ :: _, _ => .error .fuelExhausted
  | fuel + 1, key :: rest, st =>
    -- self.attributes[key] = self.creator.resolve_values(self.attributes[key])
    match dictGet st.attributes key with
    | none => .error .keyError
    | some v0 =>
      match b.resolve_values v0 with
      | .error e => .error e
      | .ok v =>
        let st := { st with attributes := dictSet st.attributes key v }
        if pyStartsWithBang key then
          -- value = self.attributes.pop(key); args = key.lstrip("!").split(":")
          let st := { st with attributes := (dictPop st.attributes key).1 }
          match splitColonAll (lstripBang key) with
          | [] => .error .indexError
          | a0 :: restArgs =>
            match b.attrExt a0 with
            | some f =>
              -- extn.attribute(*args[1:], value=value, model_instance=self)
              match f restArgs v with
              | .tuple k1 v1 =>
                parseLoop b cls fuel rest
                  { st with attributes := dictSet st.attributes k1 v1 }
              | .mapping m =>
                -- self.attributes.update(result); attribute_names.extend(result.keys())
                parseLoop b cls fuel (rest ++ m.map (fun kv => kv.1))
                  { st with attributes := dictUpdate st.attributes m }
              | .noneResult => parseLoop b cls fuel rest st
              | .unsupported => .error (.designImplementationError
                  "Cannot handle extension return type")
            | none =>
              if a0 = "get" || a0 = "update" || a0 = "create_or_update" then
                match restArgs with
                | [] => .error .indexError   -- self._filter[args[1]]: args has one element
                | a1 :: _ =>
                  -- self._action = args[0]; self._filter[args[1]] = value
                  let st := { st with action := some a0,
                                      filter := dictSet st.filter a1 v }
                  -- if self._action is None: ... elif self._action != args[0]:
                  -- raise ... — `self._action` was assigned `args[0]` just
                  -- above, so both tests are decided against that value.
                  if st.action.isNone then
                    parseLoop b cls fuel rest { st with action := some a0 }
                  else if st.action ≠ some a0 then
                    .error (.designImplementationError
                      ("Can perform only one action for a model, got both " ++ a0))
                  else
                    parseLoop b cls fuel rest st
              else
                .error (.designImplementationError ("Unknown action " ++ a0))
        else
          match splitDunder key.data with
          | some (fn, search) =>
            -- fieldname, search = key.split("__", 1)
            let fieldname := String.mk fn
            if hasattrModelClass cls fieldname then
              -- self.attributes[fieldname] = {"!get:<search>": self.attributes.pop(key)}
              let attrs1 := (dictPop st.attributes key).1
              let st := { st with attributes :=
                (dictSet attrs1 fieldname
                  (.map [("!get:" ++ String.mk search, v)])) }
              parseLoop b cls fuel rest st
            else
              .error (.designImplementationError (fieldname ++ " is not a property"))
          | none =>
            if hasattrSelf cls key then
              -- a declared field: retained as a plain attribute
              parseLoop b cls fuel rest st
            else
              -- value = self.attributes.pop(key); ModelInstance values are
              -- unwrapped to their backing record; self._kwargs[key] = value
              let v' := match v with
                | .modelInst pk => DVal.record pk
                | w => w
              parseLoop b cls fuel rest
                { st with attributes := (dictPop st.attributes key).1,
                          kwargs := dictSet st.kwargs key v' }

/-- `ModelInstance._parse_attributes`: pop `custom_fields`, run the key
loop, then default the action to CREATE and reject anything outside
`ACTION_CHOICES`. -/
def parse_attributes (b : Builder) (cls : MClass) (fuel : Nat)
    (attrs0 : List (String × DVal)) : Except PyError NodeState :=
  let (attrs, cfOpt) := dictPop attrs0 "custom_fields"
  match
    (match cfOpt with
     | none => Except.ok []
     | some (.map es) => Except.ok es
     | some _ => Except.error PyError.typeError) with
  | .error e => .error e
  | .ok custom_fields =>
    match parseLoop b cls fuel (attrs.map (fun kv => kv.1))
        ⟨attrs, [], none, []⟩ with
    | .error e => .error e
    | .ok st =>
      let action := st.action.getD "create"
      if action = "get" || action = "create" || action = "update" ||
          action = "create_or_update" then
        .ok ⟨st.attributes, custom_fields, st.filter, action, st.kwargs⟩
      else
        .error (.designImplementationError ("Unknown action " ++ action))

/-! ## Node resolver: field application and save -/

/-- A resolved node: parse results plus the backing record and the
created flag. -/
structure MInst where
  cls : MClass
  attributes : List (String × DVal)
  custom_fields : List (String × DVal)
  action : String
  kwargs : List (String × DVal)
  created : Bool
  inst : Inst
deriving Repr

/-- `ModelInstance.set_custom_field`: `self.instance.cf[field] = value`. -/
def set_custom_field (i : Inst) (field : String) (value : DVal) : Inst :=
  { i with cf := dictSet i.cf field value }

/-- The `for key, value in self._custom_fields.items()` loop body. -/
def applyCustomFields (cf : List (String × DVal)) (i : Inst) : Inst :=
  cf.foldl (fun acc kv => set_custom_field acc kv.1 kv.2) i

/-- Modelled from the spec: the field descriptors of `fields.py` are not
part of the sources; per spec §4.4 a field assignment is "set it either
on the node (if the node itself exposes that name as a
computed/relationship property) or on the backing record directly", so
both `setattr(self, f, v)` and `setattr(self.instance, f, v)` store the
value on the backing record, with a `ModelInstance` value unwrapped to
its backing record reference. -/
def setFieldValue (i : Inst) (f : String) (v : DVal) : Inst :=
  let v' := match v with
    | .modelInst pk => DVal.record pk
    | w => w
  { i with flds := dictSet i.flds f v' }

/-- The `for field_name, value in self.attributes.items()` loop of
`_update_fields`.  The custom-field loop appears nested inside this loop
(its indentation in the source), so it runs once per attribute entry. -/
def updateFieldsGo (cls : MClass) (cf : List (String × DVal)) :
    List (String × DVal) → Inst → Inst
  | [], i => i
  | (f, v) :: rest, i =>
    let i := if hasattrNodeClass cls f then setFieldValue i f v
             else if hasattrModelClass cls f then setFieldValue i f v
             else i
    let i := applyCustomFields cf i
    updateFieldsGo cls cf rest i

/-- `ModelInstance._update_fields`: the GET guard is
`if len(self.attributes) != 1 and self.attributes[0] != "deferred"`; with
one remaining attribute the conjunction short-circuits and no error is
raised; with two or more, evaluating `self.attributes[0]` on a
string-keyed dict raises `KeyError` before the comparison runs. -/
def update_fields (mi : MInst) : Except PyError MInst :=
  if mi.action = "get" && !mi.attributes.isEmpty then
    if mi.attributes.length ≠ 1 then
      .error .keyError
    else
      .ok { mi with inst := updateFieldsGo mi.cls mi.custom_fields mi.attributes mi.inst }
  else
    .ok { mi with inst := updateFieldsGo mi.cls mi.custom_fields mi.attributes mi.inst }

/-- `ModelInstance.save()`: GET is a no-op; otherwise validate (the
modelled store accepts every record), persist, clear `_created`, log into
the Journal — reading `self._created`, which the previous line just
cleared — and refresh.  The engine itself registers no lifecycle
handlers, so the `_send` broadcasts are no-ops here. -/
def MInst.save (mi : MInst) (bs : BState) : MInst × BState :=
  if mi.action = "get" then (mi, bs)
  else
    let (db', inst') := dbSave bs.db mi.inst
    let mi' := { mi with inst := inst', created := false }
    let j' := match inst'.pk with
      | some pk => bs.journal.log inst'.cls pk mi'.created
      | none => bs.journal   -- unreachable: dbSave always assigns a key
    (mi', { db := db', journal := j' })

/-! ## Node resolver: load-or-create (`ModelInstance._load_instance`) -/

mutual

/-- `_map_query_values` on one value: `ModelInstance` values become their
backing record, mappings are mapped recursively, the rest is unchanged. -/
def map_query_value : DVal → DVal
  | .modelInst pk => .record pk
  | .map es => .map (map_query_entries es)
  | v => v

/-- `_map_query_values` over dict entries. -/
def map_query_entries : List (String × DVal) → List (String × DVal)
  | [] => []
  | (k, v) :: rest => (k, map_query_value v) :: map_query_entries rest

end

/-- `_map_query_values(self._filter)`. -/
def map_query_values (q : List (String × DVal)) : List (String × DVal) :=
  map_query_entries q

/-- The `"__"` expansion loop of `_load_instance`: every key containing
the nested-relationship separator is popped and re-inserted as a nested
`!get:` mapping under its head field (`query_filter.setdefault(attribute,
{})`); a pre-existing non-mapping value under that head cannot take item
assignment (`TypeError`). -/
def restructureFilter :
    List String → List (String × DVal) → Except PyError (List (String × DVal))
  | [], qf => .ok qf
  | k :: rest, qf =>
    match splitDunder k.data with
    | none => restructureFilter rest qf
    | some (attr, fparam) =>
      match dictPop qf k with
      | (qf1, some v) =>
        let attrName := String.mk attr
        let qf2 :=
          if (dictGet qf1 attrName).isSome then qf1
          else dictSet qf1 attrName (.map [])
        match dictGet qf2 attrName with
        | some (.map es) =>
          restructureFilter rest
            (dictSet qf2 attrName
              (.map (dictSet es ("!get:" ++ String.mk fparam) v)))
        | some _ => .error .typeError
        | none => .error .keyError   -- unreachable: setdefault just ran
      | (_, none) => .error .keyError   -- unreachable: k is a key of qf

/-- The primary key of a fetched or saved instance (only applied to such
instances; an unsaved instance never flows into a filter or a fold-back). -/
def Inst.pkOrZero (i : Inst) : Nat := i.pk.getD 0

/-- `self.model_class(**self._kwargs)`: the store constructor builds a new
unsaved record; a keyword that is neither a declared field nor a settable
property raises `TypeError` (which `_load_instance` turns into a
design-implementation error). -/
def constructInstance (cls : MClass) (kwargs : List (String × DVal)) :
    Except PyError Inst :=
  if kwargs.all (fun kv => kv.1 ∈ cls.fields || kv.1 ∈ cls.props) then
    .ok { pk := none, cls := cls.name, flds := kwargs, cf := [], adding := true }
  else .error .typeError

mutual

/-- `ModelInstance.__init__`: copy the attributes, parse them, default the
relationship manager to `model_class.objects`, load or create the backing
record — store-level not-found / multiple-found escaping the load step are
wrapped into the engine's `DoesNotExistError` / `MultipleObjectsReturnedError`
— then apply the remaining field assignments. -/
def mkModelInstance : Nat → Builder → MClass → List (String × DVal) →
    Option String → BState → Except (PyError × BState) (MInst × BState)
  | 0, _, _, _, _, bs => .error (.fuelExhausted, bs)
  | fuel + 1, b, cls, attrs, relMgr, bs =>
    match parse_attributes b cls fuel attrs with
    | .error e => .error (e, bs)
    | .ok ns =>
      let relMgr := relMgr.getD cls.name
      match load_instance fuel b cls ns relMgr bs with
      | .error (.objectDoesNotExist, bs') => .error (.doesNotExistError, bs')
      | .error (.multipleObjectsReturned, bs') =>
        .error (.multipleObjectsReturnedError, bs')
      | .error e => .error e
      | .ok (mi, bs') =>
        match update_fields mi with
        | .error e => .error (e, bs')
        | .ok mi' => .ok (mi', bs')

  /-- `ModelInstance._load_instance`: GET looks the record up directly;
  UPDATE / CREATE_OR_UPDATE first expand `"__"` criteria, recursively
  resolve mapping-valued criteria into child nodes, then look the record
  up through the relationship manager; a missing record fails UPDATE,
  while CREATE_OR_UPDATE folds the filter criteria back into the
  attributes and falls through to construction; CREATE constructs a new
  unsaved record from the kwargs (a constructor type error becomes a
  design-implementation error). -/
def load_instance : Nat → Builder → MClass → NodeState → String → BState →
    Except (PyError × BState) (MInst × BState)
  | 0, _, _, _, _, bs => .error (.fuelExhausted, bs)
  | fuel + 1, b, cls, ns, relMgr, bs =>
    let query_filter := map_query_values ns.filter
    let field_values := ns.filter
    if ns.action = "get" then
      match dbGet bs.db cls.name query_filter with
      | .found r =>
        .ok (⟨cls, ns.attributes, ns.custom_fields, ns.action, ns.kwargs,
              false, r.toInst⟩, bs)
      | .doesNotExist => .error (.objectDoesNotExist, bs)
      | .multipleReturned => .error (.multipleObjectsReturned, bs)
    else if ns.action = "update" || ns.action = "create_or_update" then
      match restructureFilter (query_filter.map (fun kv => kv.1)) query_filter with
      | .error e => .error (e, bs)
      | .ok qf1 =>
        match resolveChildren fuel b cls (qf1.map (fun kv => kv.1))
            qf1 field_values bs with
        | .error e => .error e
        | .ok (qf2, fv2, bs2) =>
          match dbGet bs2.db relMgr qf2 with
          | .found r =>
            .ok (⟨cls, ns.attributes, ns.custom_fields, ns.action, ns.kwargs,
                  false, r.toInst⟩, bs2)
          | .multipleReturned => .error (.multipleObjectsReturned, bs2)
          | .doesNotExist =>
            if ns.action = "update" then
              .error (.designImplementationError "No match", bs2)
            else
              -- self._created = True; self.attributes.update(field_values)
              match constructInstance cls ns.kwargs with
              | .ok i =>
                .ok (⟨cls, dictUpdate ns.attributes fv2, ns.custom_fields,
                      ns.action, ns.kwargs, true, i⟩, bs2)
              | .error _ =>
                .error (.designImplementationError "invalid constructor arguments", bs2)
    else if ns.action ≠ "create" then
      .error (.designImplementationError ("Unknown database action " ++ ns.action), bs)
    else
      match constructInstance cls ns.kwargs with
      | .ok i =>
        .ok (⟨cls, ns.attributes, ns.custom_fields, ns.action, ns.kwargs,
              true, i⟩, bs)
      | .error _ =>
        .error (.designImplementationError "invalid constructor arguments", bs)

  /-- The `for query_param, value in query_filter.items()` loop of
  `_load_instance`: every mapping-valued criterion becomes a child node on
  the relationship's queryset; non-GET children are saved; the query filter
  is rewritten to the child's backing record and `field_values` keeps the
  child itself. -/
def resolveChildren : Nat → Builder → MClass → List String →
    List (String × DVal) → List (String × DVal) → BState →
    Except (PyError × BState)
      (List (String × DVal) × List (String × DVal) × BState)
  | _, _, _, [], qf, fv, bs => .ok (qf, fv, bs)
  | 0, _, _, _ :: _, _, _, bs => .error (.fuelExhausted, bs)
  | fuel + 1, b, cls, k :: rest, qf, fv, bs =>
    match dictGet qf k with
    | none => resolveChildren fuel b cls rest qf fv bs   -- unreachable: keys of qf
    | some v =>
      match v with
      | .map m =>
        -- rel = getattr(self.model_class, query_param); queryset = rel.get_queryset()
        match dictGet cls.related k with
        | none => .error (.attributeError, bs)
        | some tgtName =>
          -- self.creator.model_class_index[queryset.model]
          match b.classByName tgtName with
          | none => .error (.keyError, bs)
          | some tgt =>
            match create_child fuel b tgt m (some tgtName) bs with
            | .error e => .error e
            | .ok (child, bs1) =>
              let (child, bs2) :=
                if child.action ≠ "get" then child.save bs1 else (child, bs1)
              resolveChildren fuel b cls rest
                (dictSet qf k (.record child.inst.pkOrZero))
                (dictSet fv k (.modelInst child.inst.pkOrZero)) bs2
      | _ => resolveChildren fuel b cls rest qf fv bs

  /-- `ModelInstance.create_child`: construct a linked child node;
  store-level not-found / multiple-found surfacing from the construction
  are translated into design-implementation errors naming the type (spec
  §4.4; the `errors` module's class hierarchy is not under the sources, so
  the wrapped engine errors stand for the store-level ones here). -/
def create_child : Nat → Builder → MClass → List (String × DVal) →
    Option String → BState → Except (PyError × BState) (MInst × BState)
  | 0, _, _, _, _, bs => .error (.fuelExhausted, bs)
  | fuel + 1, b, tgt, attrs, relMgr, bs =>
    match mkModelInstance fuel b tgt attrs relMgr bs with
    | .ok r => .ok r
    | .error (.multipleObjectsReturnedError, bs') =>
      .error (.designImplementationError
        ("Expected exactly 1 object for " ++ tgt.name ++ " but got more than one"), bs')
    | .error (.doesNotExistError, bs') =>
      .error (.designImplementationError ("Could not find " ++ tgt.name), bs')
    | .error e => .error e

end

/-! ## Builder orchestration (`Builder.implement_design`) -/

/-- A top-level design value: one attribute mapping or a sequence of
attribute mappings (any other shape is silently skipped by
`_create_objects`, mirrored by `other`). -/
inductive DesignEntry where
  | one (attrs : List (String × DVal))
  | many (attrsList : List (List (String × DVal)))
  | other
deriving Repr

/-- Python truthiness of a design value (`if key in self.model_map and
value:`): empty dicts and lists are falsy. -/
def DesignEntry.truthy : DesignEntry → Bool
  | .one attrs => !attrs.isEmpty
  | .many l => !l.isEmpty
  | .other => true

/-- The `for model_instance in objects:` loop of `_create_objects`. -/
def createObjectsList (fuel : Nat) (b : Builder) (cls : MClass) :
    List (List (String × DVal)) → BState → Except (PyError × BState) BState
  | [], bs => .ok bs
  | attrs :: rest, bs =>
    match mkModelInstance fuel b cls attrs none bs with
    | .error e => .error e
    | .ok (mi, bs1) => createObjectsList fuel b cls rest (mi.save bs1).2

/-- `Builder._create_objects`: one node per mapping (constructed then
saved), one per sequence element; anything else does nothing. -/
def create_objects (fuel : Nat) (b : Builder) (cls : MClass)
    (objects : DesignEntry) (bs : BState) : Except (PyError × BState) BState :=
  match objects with
  | .one attrs =>
    match mkModelInstance fuel b cls attrs none bs with
    | .error e => .error e
    | .ok (mi, bs1) => .ok (mi.save bs1).2
  | .many l => createObjectsList fuel b cls l bs
  | .other => .ok bs

/-- The `for key, value in design.items():` loop inside the `try` block of
`implement_design`: a key outside the record-type registry, or a falsy
value, raises the unknown-model-key error. -/
def designLoop (fuel : Nat) (b : Builder) :
    List (String × DesignEntry) → BState → Except (PyError × BState) BState
  | [], bs => .ok bs
  | (key, value) :: rest, bs =>
    match dictGet b.model_map key with
    | some cls =>
      if value.truthy then
        match create_objects fuel b cls value bs with
        | .error e => .error e
        | .ok bs1 => designLoop fuel b rest bs1
      else
        .error (.designImplementationError ("Unknown model key " ++ key ++ " in design"), bs)
    | none =>
      .error (.designImplementationError ("Unknown model key " ++ key ++ " in design"), bs)

/-- The orchestrator's observable call state: the store and Journal plus
how many times the `commit()` / `roll_back()` hook broadcasts ran (the
broadcasts themselves are modelled on `ExtRegistry` below; neither raises
within the engine). -/
structure ImplState where
  bs : BState
  commitCalls : Nat
  rollBackCalls : Nat
deriving Repr

/-- One `self.commit()` invocation. -/
def commitStep (st : ImplState) : ImplState :=
  { st with commitCalls := st.commitCalls + 1 }

/-- One `self.roll_back()` invocation. -/
def rollBackStep (st : ImplState) : ImplState :=
  { st with rollBackCalls := st.rollBackCalls + 1 }

/-- `Builder.implement_design(design, commit)`: an empty design raises
before the `try` block (so nothing is rolled back for it); the traversal
runs inside `try`, followed by `commit()` or `roll_back()` according to
the flag; any exception triggers `roll_back()` and is re-raised
unchanged. -/
def implement_design (fuel : Nat) (b : Builder) (st : ImplState)
    (design : List (String × DesignEntry)) (commit : Bool) :
    Except (PyError × ImplState) ImplState :=
  if design.isEmpty then
    .error (.designImplementationError "Empty design", st)
  else
    match designLoop fuel b design st.bs with
    | .ok bs' =>
      if commit then .ok (commitStep { st with bs := bs' })
      else .ok (rollBackStep { st with bs := bs' })
    | .error (e, bs') =>
      .error (e, rollBackStep { st with bs := bs' })

/-! ## Extension registry (`Builder.__init__`, `get_extension`,
`commit`, `roll_back`)

An extension class is its tag, its capability classes, and whether its
instances define `commit` / `roll_back` hooks.  The registry keeps one
shared entry per class (the `extn` dict stored in both the `extensions`
list and the per-kind tag maps), whose `object` field is `None` until
`get_extension` instantiates it. -/

structure ExtClass where
  tag : String
  isAttribute : Bool
  isValue : Bool
  hasCommit : Bool
  hasRollBack : Bool
deriving DecidableEq, Repr

/-- One registry entry: the class plus whether `extn["object"]` has been
instantiated. -/
structure ExtEntry where
  cls : ExtClass
  instantiated : Bool
deriving DecidableEq, Repr

/-- `self.extensions`: the entry list plus the `attribute`/`value` tag
maps, which hold indices into the (shared) entry list. -/
structure ExtRegistry where
  entries : List ExtEntry
  attrTags : List (String × Nat)
  valueTags : List (String × Nat)
deriving DecidableEq, Repr

/-- The registration loop of `Builder.__init__`: every class is appended
with `object = None`; attribute-capable classes are indexed under their
tag in the `attribute` map, value-capable ones in the `value` map. -/
def initExtensions (classes : List ExtClass) : ExtRegistry :=
  classes.foldl
    (fun r c =>
      let idx := r.entries.length
      { entries := r.entries ++ [⟨c, false⟩]
        attrTags := if c.isAttribute then dictSet r.attrTags c.tag idx else r.attrTags
        valueTags := if c.isValue then dictSet r.valueTags c.tag idx else r.valueTags })
    ⟨[], [], []⟩

/-- `Builder.get_extension(ext_type, tag)`: `none` when the tag is not
registered for that kind; otherwise the (lazily instantiated) entry's
index, with the shared entry marked instantiated. -/
def get_extension (r : ExtRegistry) (extType : String) (tag : String) :
    Option Nat × ExtRegistry :=
  match dictGet (if extType = "attribute" then r.attrTags else r.valueTags) tag with
  | none => (none, r)
  | some idx =>
    (some idx,
     { r with entries := (r.entries.mapIdx
         (fun i e => if i = idx then { e with instantiated := true } else e)) })

/-- `Builder.commit()`: `hasattr(extn["object"], "commit")` — an
uninstantiated entry holds `None`, which defines no hook; the tags whose
hook actually runs, in registration order. -/
def commitInvoked (r : ExtRegistry) : List String :=
  r.entries.filterMap
    (fun e => if e.instantiated && e.cls.hasCommit then some e.cls.tag else none)

/-- `Builder.roll_back()`: same broadcast over the `roll_back` hooks. -/
def rollBackInvoked (r : ExtRegistry) : List String :=
  r.entries.filterMap
    (fun e => if e.instantiated && e.cls.hasRollBack then some e.cls.tag else none)

/-! ## Concrete fixtures used by the claim evaluations -/

/-- A record type with two declared fields. -/
def widgetClass : MClass := ⟨"Widget", ["name", "status"], [], []⟩

/-- A Builder whose registry knows `widgets` and which has no extensions
registered. -/
def widgetBuilder : Builder :=
  ⟨[("widgets", widgetClass)], fun _ => none, fun _ => none⟩

/-- An empty store and an empty journal. -/
def emptyBS : BState := ⟨⟨[], 0⟩, Journal.empty⟩

/-- The orchestrator state before a call: no hook broadcast has run. -/
def emptyImpl : ImplState := ⟨emptyBS, 0, 0⟩

/-! ## Claims -/

/-- C1: the claim says a successful `implement_design(D, commit=True)` on a
pure-CREATE design puts the new identities into the Journal's `created`
index and none into `updated`.  Evaluating the engine on a one-entry
pure-CREATE design: exactly one record is created, but `created` stays
empty and the new identity lands in `updated` — `save()` assigns
`self._created = False` before `journal.log(self)` reads the flag, so the
created branch of `Journal.log` is unreachable from `save()`. -/
theorem c1_pure_create_logged_as_updated :
    implement_design 20 widgetBuilder emptyImpl
        [("widgets", .one [("name", .str "A")])] true =
      .ok ⟨⟨⟨[⟨0, "Widget", [("name", .str "A")], []⟩], 1⟩,
           ⟨[0], [], [("Widget", [0])]⟩⟩, 1, 0⟩ ∧
    (Journal.mk [0] [] [("Widget", [0])]).created = [] ∧
    (Journal.mk [0] [] [("Widget", [0])]).updated = [("Widget", [0])] :=
  ⟨rfl, rfl, rfl⟩

/-- C2: the claim says a node carrying two action directives with
different tags fails with a design-implementation error before any store
mutation.  Evaluating `_parse_attributes` on a node carrying both
`!get:name` and `!update:name`: parsing succeeds with the later tag
silently overwriting the action — the conflict check compares
`self._action` against `args[0]` right after `self._action = args[0]` was
assigned, so it can never fire. -/
theorem c2_conflicting_directives_accepted :
    parse_attributes widgetBuilder widgetClass 10
        [("!get:name", .str "foo"), ("!update:name", .str "bar")] =
      .ok ⟨[], [], [("name", .str "bar")], "update", []⟩ :=
  rfl

/-- C3: the claim says a GET node with at least one real field assignment
never completes successfully.  Evaluating the full node constructor on a
GET node carrying one field assignment over a store that holds the
matching record: construction completes successfully and even applies the
assignment — the guard `len(self.attributes) != 1 and
self.attributes[0] != "deferred"` short-circuits to `False` whenever
exactly one assignment remains. -/
theorem c3_get_with_field_assignment_completes :
    mkModelInstance 10 widgetBuilder widgetClass
        [("!get:name", .str "HQ"), ("status", .str "active")] none
        ⟨⟨[⟨1, "Widget", [("name", .str "HQ")], []⟩], 2⟩, Journal.empty⟩ =
      .ok (⟨widgetClass, [("status", .str "active")], [], "get", [], false,
            ⟨some 1, "Widget",
             [("name", .str "HQ"), ("status", .str "active")], [], false⟩⟩,
           ⟨⟨[⟨1, "Widget", [("name", .str "HQ")], []⟩], 2⟩, Journal.empty⟩) :=
  rfl

/-- C7: the claim says every custom-field entry is applied exactly once
after the field assignments, even when there are no field assignments.
Evaluating `_update_fields` on a node with no remaining field assignments
and one custom-field entry: the custom-field setter never runs (the
instance's custom-field data stays empty), because the custom-field loop
is nested inside the field-assignment loop. -/
theorem c7_custom_field_skipped_without_assignments :
    update_fields ⟨widgetClass, [], [("cf1", .str "v")], "create", [], true,
        ⟨none, "Widget", [], [], true⟩⟩ =
      .ok ⟨widgetClass, [], [("cf1", .str "v")], "create", [], true,
        ⟨none, "Widget", [], [], true⟩⟩ ∧
    (Inst.mk none "Widget" [] [] true).cf = [] :=
  ⟨rfl, rfl⟩

/-- C4 counterexample: the claim says `roll_back()` runs exactly once
before *every* error propagates, including the empty-design error.  The
empty-design error is raised before the `try` block: `implement_design`
on an empty design propagates the error with the roll-back invocation
count untouched (zero invocations, not one). -/
theorem c4_empty_design_skips_roll_back :
    implement_design 10 widgetBuilder emptyImpl [] true =
      .error (.designImplementationError "Empty design", emptyImpl) ∧
    emptyImpl.rollBackCalls = 0 :=
  ⟨rfl, rfl⟩

/-- C4 (amended): for every error raised during the traversal itself (the
`try` block: unknown-model-key and node construction/save errors),
`roll_back()` is invoked exactly once before the error propagates, and
the propagated exception is exactly the one the traversal raised; only
the empty-design precondition error escapes without a roll-back. -/
theorem c4_roll_back_once_on_traversal_error
    (fuel : Nat) (b : Builder) (st : ImplState)
    (design : List (String × DesignEntry)) (commit : Bool)
    (e : PyError) (st' : ImplState)
    (hne : design ≠ [])
    (herr : implement_design fuel b st design commit = .error (e, st')) :
    st'.rollBackCalls = st.rollBackCalls + 1 ∧
    ∃ bs', designLoop fuel b design st.bs = .error (e, bs') ∧
      st' = rollBackStep { st with bs := bs' } := by
  unfold implement_design at herr
  rw [if_neg (by simp [hne])] at herr
  cases hloop : designLoop fuel b design st.bs with
  | ok bs' =>
    rw [hloop] at herr
    cases commit <;> simp at herr
  | error p =>
    obtain ⟨e0, bs'⟩ := p
    rw [hloop] at herr
    simp only [Except.error.injEq, Prod.mk.injEq] at herr
    obtain ⟨he, hst⟩ := herr
    subst he
    subst hst
    exact ⟨rfl, bs', rfl, rfl⟩

/-- Witness for C4 (amended): an unknown-model-key error on a one-entry
design triggers exactly one roll-back and propagates unchanged. -/
theorem c4_roll_back_once_witness :
    (rollBackStep emptyImpl).rollBackCalls = emptyImpl.rollBackCalls + 1 ∧
    ∃ bs', designLoop 10 widgetBuilder [("bogus", .one [("x", .str "y")])]
        emptyImpl.bs =
        .error (.designImplementationError "Unknown model key bogus in design", bs') ∧
      rollBackStep emptyImpl = rollBackStep { emptyImpl with bs := bs' } :=
  c4_roll_back_once_on_traversal_error 10 widgetBuilder emptyImpl
    [("bogus", .one [("x", .str "y")])] true
    (.designImplementationError "Unknown model key bogus in design")
    (rollBackStep emptyImpl)
    (List.cons_ne_nil _ _) rfl

/-- An extension class that is attribute-capable and defines both the
`commit` and the `roll_back` hook. -/
def demoExt : ExtClass := ⟨"mytag", true, false, true, true⟩

/-- C5 counterexample: the claim says `commit()` / `roll_back()` invoke
the hooks of every registered extension that defines one, including
extensions never dispatched to.  A freshly registered extension defining
both hooks has `extn["object"] = None` (never instantiated), and
`hasattr(None, ...)` is false: neither broadcast invokes it. -/
theorem c5_never_dispatched_hooks_skipped :
    (initExtensions [demoExt]).entries = [⟨demoExt, false⟩] ∧
    demoExt.hasCommit = true ∧ demoExt.hasRollBack = true ∧
    commitInvoked (initExtensions [demoExt]) = [] ∧
    rollBackInvoked (initExtensions [demoExt]) = [] :=
  ⟨rfl, rfl, rfl, rfl, rfl⟩

/-- C5 (amended): the `commit()` / `roll_back()` broadcasts invoke the
hooks of exactly the registered extensions that have been instantiated
(dispatched to through `get_extension` at least once) and define the
hook: every invoked tag belongs to an instantiated entry defining the
hook, and once `get_extension` resolves a tag, that entry is
instantiated and its defined hooks are invoked by the broadcasts. -/
theorem c5_hooks_run_only_for_instantiated
    (r r' : ExtRegistry) (extType tag : String) (idx : Nat)
    (hget : get_extension r extType tag = (some idx, r'))
    (hidx : idx < r.entries.length) :
    (∀ s : ExtRegistry, ∀ t, t ∈ commitInvoked s →
      ∃ e, e ∈ s.entries ∧ e.cls.tag = t ∧ e.instantiated = true ∧
        e.cls.hasCommit = true) ∧
    (∀ s : ExtRegistry, ∀ t, t ∈ rollBackInvoked s →
      ∃ e, e ∈ s.entries ∧ e.cls.tag = t ∧ e.instantiated = true ∧
        e.cls.hasRollBack = true) ∧
    (∃ e : ExtEntry, e ∈ r'.entries ∧ e.instantiated = true ∧
      e.cls = (r.entries.get ⟨idx, hidx⟩).cls ∧
      (e.cls.hasCommit = true → e.cls.tag ∈ commitInvoked r') ∧
      (e.cls.hasRollBack = true → e.cls.tag ∈ rollBackInvoked r')) := by
  refine ⟨?_, ?_, ?_⟩
  · intro s t ht
    obtain ⟨e, he, hfe⟩ := List.mem_filterMap.mp ht
    by_cases hc : e.instantiated && e.cls.hasCommit
    · rw [if_pos hc] at hfe
      rw [Bool.and_eq_true] at hc
      obtain ⟨h1, h2⟩ := hc
      exact ⟨e, he, by injection hfe, h1, h2⟩
    · rw [if_neg hc] at hfe
      exact absurd hfe (by simp)
  · intro s t ht
    obtain ⟨e, he, hfe⟩ := List.mem_filterMap.mp ht
    by_cases hc : e.instantiated && e.cls.hasRollBack
    · rw [if_pos hc] at hfe
      rw [Bool.and_eq_true] at hc
      obtain ⟨h1, h2⟩ := hc
      exact ⟨e, he, by injection hfe, h1, h2⟩
    · rw [if_neg hc] at hfe
      exact absurd hfe (by simp)
  · unfold get_extension at hget
    cases hdg : dictGet (if extType = "attribute" then r.attrTags else r.valueTags) tag with
    | none => rw [hdg] at hget; exact absurd hget (by simp)
    | some idx0 =>
      rw [hdg] at hget
      simp only [Prod.mk.injEq, Option.some.injEq] at hget
      obtain ⟨hi, hr⟩ := hget
      rw [hi] at hr
      have hlen : idx < (r.entries.mapIdx
          (fun i e => if i = idx then { e with instantiated := true } else e)).length := by
        rw [List.length_mapIdx]; exact hidx
      have hget_eq : (r.entries.mapIdx
          (fun i e => if i = idx then { e with instantiated := true } else e)).get
          ⟨idx, hlen⟩ =
          { r.entries.get ⟨idx, hidx⟩ with instantiated := true } := by
        rw [List.get_mapIdx r.entries _ idx hidx]
        simp
      refine ⟨{ r.entries.get ⟨idx, hidx⟩ with instantiated := true },
        ?_, rfl, rfl, ?_, ?_⟩
      · rw [← hr, ← hget_eq]
        exact List.get_mem _ _ _
      · intro hcom
        rw [← hr]
        exact List.mem_filterMap.mpr
          ⟨{ r.entries.get ⟨idx, hidx⟩ with instantiated := true },
           by rw [← hget_eq]; exact List.get_mem _ _ _,
           by simp only []; simpa using hcom⟩
      · intro hrb
        rw [← hr]
        exact List.mem_filterMap.mpr
          ⟨{ r.entries.get ⟨idx, hidx⟩ with instantiated := true },
           by rw [← hget_eq]; exact List.get_mem _ _ _,
           by simp only []; simpa using hrb⟩

/-- Witness for C5 (amended): dispatching to the demo extension through
`get_extension` instantiates it, after which both broadcasts invoke its
hooks. -/
theorem c5_hooks_witness :
    (∀ s : ExtRegistry, ∀ t, t ∈ commitInvoked s →
      ∃ e, e ∈ s.entries ∧ e.cls.tag = t ∧ e.instantiated = true ∧
        e.cls.hasCommit = true) ∧
    (∀ s : ExtRegistry, ∀ t, t ∈ rollBackInvoked s →
      ∃ e, e ∈ s.entries ∧ e.cls.tag = t ∧ e.instantiated = true ∧
        e.cls.hasRollBack = true) ∧
    (∃ e : ExtEntry,
      e ∈ (get_extension (initExtensions [demoExt]) "attribute" "mytag").2.entries ∧
      e.instantiated = true ∧
      e.cls = ((initExtensions [demoExt]).entries.get ⟨0, by decide⟩).cls ∧
      (e.cls.hasCommit = true →
        e.cls.tag ∈ commitInvoked (get_extension (initExtensions [demoExt]) "attribute" "mytag").2) ∧
      (e.cls.hasRollBack = true →
        e.cls.tag ∈ rollBackInvoked (get_extension (initExtensions [demoExt]) "attribute" "mytag").2)) :=
  c5_hooks_run_only_for_instantiated (initExtensions [demoExt])
    (get_extension (initExtensions [demoExt]) "attribute" "mytag").2
    "attribute" "mytag" 0 rfl (by decide)

/-- A character list without a colon splits to `none` under
`split(":", 1)`. -/
theorem splitOnceColon_eq_none {cs : List Char} (h : ':' ∉ cs) :
    splitOnceColon cs = none := by
  induction cs with
  | nil => rfl
  | cons c rest ih =>
    rw [List.mem_cons, not_or] at h
    simp only [splitOnceColon]
    rw [if_neg (fun hc => h.1 hc.symm), ih h.2]
    rfl

/-- C10: for every string beginning with `!` but containing no `:`,
`resolve_value` fails — `value.lstrip("!").split(":", 1)` yields a single
piece and unpacking it into `(action, arg)` raises `ValueError` — and the
failure is not the documented unknown-value-extension
design-implementation error. -/
theorem c10_bang_without_colon_value_error
    (b : Builder) (s : String)
    (hbang : pyStartsWithBang s = true)
    (hnocolon : ':' ∉ s.data) :
    b.resolve_value (.str s) =
      .error (.valueError "not enough values to unpack") ∧
    (∀ msg, (PyError.valueError "not enough values to unpack") ≠
      .designImplementationError msg) := by
  constructor
  · have hsplit : splitOnceColon (lstripBang s) = none :=
      splitOnceColon_eq_none
        (fun hm => hnocolon ((List.dropWhile_sublist _).subset hm))
    simp [Builder.resolve_value, hbang, hsplit]
  · intro msg hEq
    cases hEq

/-- Witness for C10 at the value string `"!foo"`. -/
theorem c10_bang_witness :
    widgetBuilder.resolve_value (.str "!foo") =
      .error (.valueError "not enough values to unpack") ∧
    (∀ msg, (PyError.valueError "not enough values to unpack") ≠
      .designImplementationError msg) :=
  c10_bang_without_colon_value_error widgetBuilder "!foo" rfl (by decide)

/-- Allocation preserves every existing heap binding (`find?` scans the
original segment first). -/
theorem Heap.lookup_alloc (h : Heap) (o : HObj) (a : Nat) (x : HObj)
    (hx : h.lookup a = some x) : (h.alloc o).1.lookup a = some x := by
  unfold Heap.lookup at hx ⊢
  unfold Heap.alloc
  obtain ⟨kv, hfind, hsnd⟩ := Option.map_eq_some'.mp hx
  simp only [List.find?_append, hfind]
  simp [hsnd]

/-- C9: `resolve_values` never mutates its input in place: on success
every object of the input heap — in particular a list or mapping passed
in — is still bound to its original contents (resolution builds a fresh
copy), and a scalar that is not a value-extension reference passes
through with the heap untouched. -/
theorem c9_resolve_values_frame
    (vx : String → Option (String → HVal)) (h : Heap) (v : HVal)
    (h' : Heap) (v' : HVal)
    (hok : resolveValuesH vx h v = .ok (h', v')) :
    (∀ a x, h.lookup a = some x → h'.lookup a = some x) ∧
    (∀ s : String, pyStartsWithBang s = false →
      resolveValuesH vx h (.str s) = .ok (h, .str s)) ∧
    (∀ n : Int, resolveValuesH vx h (.int n) = .ok (h, .int n)) := by
  refine ⟨?_, ?_, ?_⟩
  · intro a x hx
    cases v with
    | str s =>
      simp only [resolveValuesH] at hok
      cases hres : resolveValueH vx (.str s) with
      | ok w =>
        rw [hres] at hok
        simp only [Except.ok.injEq, Prod.mk.injEq] at hok
        rw [← hok.1]
        exact hx
      | error e =>
        rw [hres] at hok
        cases hok
    | int n =>
      simp only [resolveValuesH, Except.ok.injEq, Prod.mk.injEq] at hok
      rw [← hok.1]
      exact hx
    | ref aRef =>
      simp only [resolveValuesH] at hok
      cases hl : h.lookup aRef with
      | none =>
        rw [hl] at hok
        simp only [Except.ok.injEq, Prod.mk.injEq] at hok
        rw [← hok.1]
        exact hx
      | some obj =>
        rw [hl] at hok
        cases obj with
        | arr items =>
          dsimp only at hok
          cases hres : resolveListH vx items with
          | ok items' =>
            rw [hres] at hok
            simp only [Except.ok.injEq, Prod.mk.injEq] at hok
            rw [← hok.1]
            exact Heap.lookup_alloc h _ a x hx
          | error e =>
            rw [hres] at hok
            cases hok
        | dict entries =>
          dsimp only at hok
          cases hres : resolveEntriesH vx entries with
          | ok entries' =>
            rw [hres] at hok
            simp only [Except.ok.injEq, Prod.mk.injEq] at hok
            rw [← hok.1]
            exact Heap.lookup_alloc h _ a x hx
          | error e =>
            rw [hres] at hok
            cases hok
  · intro s hs
    simp [resolveValuesH, resolveValueH, hs]
  · intro n
    rfl

/-- A one-object heap used to witness the frame property. -/
def demoHeap : Heap := ⟨[(0, .arr [.str "x"])], 1⟩

/-- The heap after resolving a reference to the demo list: the copy lives
at the fresh address, the original binding is intact. -/
def demoHeapAfter : Heap := ⟨[(0, .arr [.str "x"]), (1, .arr [.str "x"])], 2⟩

/-- Witness for C9: resolving a list reference on the demo heap. -/
theorem c9_frame_witness :
    (∀ a x, demoHeap.lookup a = some x → demoHeapAfter.lookup a = some x) ∧
    (∀ s : String, pyStartsWithBang s = false →
      resolveValuesH (fun _ => none) demoHeap (.str s) = .ok (demoHeap, .str s)) ∧
    (∀ n : Int, resolveValuesH (fun _ => none) demoHeap (.int n) =
      .ok (demoHeap, .int n)) :=
  c9_resolve_values_frame (fun _ => none) demoHeap (.ref 0) demoHeapAfter
    (.ref 1) rfl


/-! ### Journal dedup invariant (claim C8) -/

namespace Journal

/-- Membership in the keys of a mapped-replacement type index. -/
theorem mem_pksOf_map_set (d : List (String × List Nat)) (ty : String)
    (ps : List Nat) (q : Nat)
    (hq : q ∈ pksOf (d.map (fun kv => if kv.1 = ty then (ty, ps) else kv))) :
    q ∈ pksOf d ∨ q ∈ ps := by
  induction d with
  | nil => simp [pksOf] at hq
  | cons kv rest ih =>
    simp only [List.map_cons, pksOf, List.mem_append] at hq
    cases hq with
    | inl h1 =>
      by_cases hk : kv.1 = ty
      · rw [if_pos hk] at h1
        exact Or.inr h1
      · rw [if_neg hk] at h1
        exact Or.inl (by simp [pksOf, List.mem_append]; exact Or.inl h1)
    | inr h2 =>
      cases ih h2 with
      | inl h => exact Or.inl (by simp [pksOf, List.mem_append]; exact Or.inr h)
      | inr h => exact Or.inr h

/-- `pksOf` distributes over appending. -/
theorem pksOf_append (a c : List (String × List Nat)) :
    pksOf (a ++ c) = pksOf a ++ pksOf c := by
  induction a with
  | nil => rfl
  | cons kv rest ih => simp [pksOf, ih]

/-- A key in `dictSet d ty ps` was in `d` or comes from `ps`. -/
theorem mem_pksOf_dictSet (d : List (String × List Nat)) (ty : String)
    (ps : List Nat) (q : Nat) (hq : q ∈ pksOf (dictSet d ty ps)) :
    q ∈ pksOf d ∨ q ∈ ps := by
  unfold dictSet at hq
  split at hq
  · exact mem_pksOf_map_set d ty ps q hq
  · rw [pksOf_append] at hq
    simp only [List.mem_append, pksOf, List.append_nil] at hq
    cases hq with
    | inl h => exact Or.inl h
    | inr h => exact Or.inr (by simpa using h)

/-- A member of a set stored under some type is among the index's keys. -/
theorem mem_pksOf_of_mem (d : List (String × List Nat))
    (kv : String × List Nat) (hkv : kv ∈ d) (q : Nat) (hq : q ∈ kv.2) :
    q ∈ pksOf d := by
  induction d with
  | nil => cases hkv
  | cons kv0 rest ih =>
    simp only [pksOf, List.mem_append]
    cases List.mem_cons.mp hkv with
    | inl h => exact Or.inl (h ▸ hq)
    | inr h => exact Or.inr (ih h)

/-- The sets read back through `dictGet` are among the index's keys. -/
theorem mem_pksOf_of_dictGet (d : List (String × List Nat)) (ty : String)
    (ps : List Nat) (hdg : dictGet d ty = some ps) (q : Nat) (hq : q ∈ ps) :
    q ∈ pksOf d := by
  unfold dictGet at hdg
  obtain ⟨kv, hfind, hsnd⟩ := Option.map_eq_some'.mp hdg
  exact mem_pksOf_of_mem d kv (List.mem_of_find?_eq_some hfind) q (hsnd ▸ hq)

/-- A key in `addToTypeIndex d ty pk` was in `d` or is `pk` itself. -/
theorem mem_pksOf_addToTypeIndex (d : List (String × List Nat)) (ty : String)
    (pk q : Nat) (hq : q ∈ pksOf (addToTypeIndex d ty pk)) :
    q ∈ pksOf d ∨ q = pk := by
  unfold addToTypeIndex at hq
  cases hdg : dictGet d ty with
  | none =>
    rw [hdg] at hq
    cases mem_pksOf_dictSet d ty [pk] q hq with
    | inl h => exact Or.inl h
    | inr h => exact Or.inr (by simpa using h)
  | some ps =>
    rw [hdg] at hq
    cases mem_pksOf_dictSet d ty _ q hq with
    | inl h => exact Or.inl h
    | inr h =>
      by_cases hpk : pk ∈ ps
      · rw [if_pos hpk] at h
        exact Or.inl (mem_pksOf_of_dictGet d ty ps hdg q h)
      · rw [if_neg hpk] at h
        cases List.mem_append.mp h with
        | inl h1 => exact Or.inl (mem_pksOf_of_dictGet d ty ps hdg q h1)
        | inr h2 => exact Or.inr (by simpa using h2)

/-- The dedup invariant of the Journal: no duplicate in the visited
index, every logged key is visited, and no key is in both `created`
and `updated`. -/
def wfInv (j : Journal) : Prop :=
  j.index.Nodup ∧
  (∀ pk, pk ∈ pksOf j.created → pk ∈ j.index) ∧
  (∀ pk, pk ∈ pksOf j.updated → pk ∈ j.index) ∧
  (∀ pk, pk ∈ pksOf j.created → pk ∉ pksOf j.updated)

/-- `log` preserves the dedup invariant. -/
theorem log_wfInv (j : Journal) (ty : String) (pk : Nat) (flag : Bool)
    (hw : wfInv j) : wfInv (j.log ty pk flag) := by
  obtain ⟨hnd, hc, hu, hdisj⟩ := hw
  unfold log
  split
  · exact ⟨hnd, hc, hu, hdisj⟩
  · rename_i hnotin
    have hndidx : (j.index ++ [pk]).Nodup := by
      rw [List.nodup_append]
      refine ⟨hnd, List.nodup_singleton pk, fun a ha hb => hnotin ?_⟩
      have haeq : a = pk := by simpa using hb
      rwa [haeq] at ha
    cases flag with
    | false =>
      refine ⟨by simpa using hndidx, ?_, ?_, ?_⟩
      · intro q hq
        exact List.mem_append.mpr (Or.inl (hc q hq))
      · intro q hq
        cases mem_pksOf_addToTypeIndex j.updated ty pk q hq with
        | inl h => exact List.mem_append.mpr (Or.inl (hu q h))
        | inr h => exact List.mem_append.mpr (Or.inr (by simp [h]))
      · intro q hq hq2
        cases mem_pksOf_addToTypeIndex j.updated ty pk q hq2 with
        | inl h => exact hdisj q hq h
        | inr h => exact hnotin (h ▸ hc q hq)
    | true =>
      refine ⟨by simpa using hndidx, ?_, ?_, ?_⟩
      · intro q hq
        cases mem_pksOf_addToTypeIndex j.created ty pk q hq with
        | inl h => exact List.mem_append.mpr (Or.inl (hc q h))
        | inr h => exact List.mem_append.mpr (Or.inr (by simp [h]))
      · intro q hq
        exact List.mem_append.mpr (Or.inl (hu q hq))
      · intro q hq hq2
        cases mem_pksOf_addToTypeIndex j.created ty pk q hq with
        | inl h => exact hdisj q h hq2
        | inr h => exact hnotin (h ▸ hu q hq2)

/-- Replaying any `log` sequence preserves the dedup invariant. -/
theorem applyLogs_wfInv (ls : List (String × Nat × Bool)) (j : Journal)
    (hw : wfInv j) : wfInv (applyLogs j ls) := by
  induction ls generalizing j with
  | nil => exact hw
  | cons l rest ih => exact ih _ (log_wfInv j l.1 l.2.1 l.2.2 hw)

/-- The empty Journal satisfies the dedup invariant. -/
theorem empty_wfInv : wfInv empty := by
  refine ⟨List.nodup_nil, ?_, ?_, ?_⟩ <;> intro q hq <;> simp [pksOf, empty] at hq

end Journal

/-- C8: replaying any sequence of `Journal.log` calls from the empty
Journal, every identity appears in the visited index at most once and in
at most one of the `created`/`updated` indices (never both), and logging
an already-visited identity again leaves the Journal unchanged. -/
theorem c8_journal_log_dedup (ls : List (String × Nat × Bool)) :
    (Journal.applyLogs Journal.empty ls).index.Nodup ∧
    (∀ pk, pk ∈ Journal.pksOf (Journal.applyLogs Journal.empty ls).created →
      pk ∉ Journal.pksOf (Journal.applyLogs Journal.empty ls).updated) ∧
    (∀ ty pk flag, pk ∈ (Journal.applyLogs Journal.empty ls).index →
      (Journal.applyLogs Journal.empty ls).log ty pk flag =
        Journal.applyLogs Journal.empty ls) := by
  have hw := Journal.applyLogs_wfInv ls Journal.empty Journal.empty_wfInv
  refine ⟨hw.1, hw.2.2.2, ?_⟩
  intro ty pk flag hmem
  unfold Journal.log
  rw [if_pos hmem]

/-- Witness for C8: logging the same identity twice (created, then
updated) keeps the visited index duplicate-free, and a further log of
that identity is a no-op. -/
theorem c8_journal_dedup_witness :
    (Journal.applyLogs Journal.empty [("Widget", 5, true), ("Widget", 5, false)]).index.Nodup ∧
    (Journal.applyLogs Journal.empty [("Widget", 5, true), ("Widget", 5, false)]).log
        "Widget" 5 false =
      Journal.applyLogs Journal.empty [("Widget", 5, true), ("Widget", 5, false)] :=
  ⟨(c8_journal_log_dedup [("Widget", 5, true), ("Widget", 5, false)]).1,
   (c8_journal_log_dedup [("Widget", 5, true), ("Widget", 5, false)]).2.2
     "Widget" 5 false (by decide)⟩




/-! ### Association-list facts used for the CREATE_OR_UPDATE fold-back -/

section DictLemmas

variable {α : Type}

/-- Setting a key makes it readable. -/
theorem dictGet_dictSet_self (d : List (String × α)) (k : String) (v : α) :
    dictGet (dictSet d k v) k = some v := by
  unfold dictSet
  split
  · rename_i hsome
    unfold dictGet
    rw [List.find?_map]
    have hfn : ((fun kv : String × α => decide (kv.1 = k)) ∘
        (fun kv : String × α => if kv.1 = k then (k, v) else kv)) =
        (fun kv : String × α => decide (kv.1 = k)) := by
      funext kv
      simp only [Function.comp_apply]
      by_cases hkv : kv.1 = k
      · rw [if_pos hkv]
        simp [hkv]
      · rw [if_neg hkv]
    rw [hfn]
    obtain ⟨kv0, hfind⟩ := Option.isSome_iff_exists.mp hsome
    have hk0 : kv0.1 = k := by simpa using List.find?_some hfind
    rw [hfind]
    simp [hk0]
  · unfold dictGet
    rw [List.find?_append]
    rename_i hnone
    have h1 : d.find? (fun kv => kv.1 = k) = none := by
      cases h : d.find? (fun kv => kv.1 = k) with
      | none => rfl
      | some kv0 => rw [h] at hnone; simp at hnone
    rw [h1]
    simp

/-- Setting one key leaves every other key unchanged. -/
theorem dictGet_dictSet_ne (d : List (String × α)) (k k' : String) (v : α)
    (hne : k' ≠ k) : dictGet (dictSet d k v) k' = dictGet d k' := by
  unfold dictSet
  split
  · unfold dictGet
    rw [List.find?_map]
    have hfn : ((fun kv : String × α => decide (kv.1 = k')) ∘
        (fun kv : String × α => if kv.1 = k then (k, v) else kv)) =
        (fun kv : String × α => decide (kv.1 = k')) := by
      funext kv
      simp only [Function.comp_apply]
      by_cases hkv : kv.1 = k
      · rw [if_pos hkv]
        have h1 : ¬ (k = k') := fun h => hne h.symm
        have h2 : ¬ (kv.1 = k') := by rw [hkv]; exact h1
        simp [h1, h2]
      · rw [if_neg hkv]
    rw [hfn]
    cases h : d.find? (fun kv => kv.1 = k') with
    | none => simp
    | some kv0 =>
      have hk0 : kv0.1 = k' := by simpa using List.find?_some h
      have hkk : ¬ (kv0.1 = k) := by rw [hk0]; exact hne
      simp [if_neg hkk]
  · unfold dictGet
    rw [List.find?_append]
    have h2 : [(k, v)].find? (fun kv => kv.1 = k') = none := by
      rw [List.find?_cons_of_neg _
        (by simp only [decide_eq_true_eq]; exact fun h => hne h.symm)]
      rfl
    rw [h2]
    simp

/-- Reading through an update whose entries avoid the key. -/
theorem dictGet_dictUpdate_not_mem (m : List (String × α)) :
    ∀ (d : List (String × α)) (k : String), k ∉ m.map (fun kv => kv.1) →
    dictGet (dictUpdate d m) k = dictGet d k := by
  induction m with
  | nil => intro d k _; rfl
  | cons kv rest ih =>
    intro d k h
    simp only [List.map_cons, List.mem_cons, not_or] at h
    have step : dictUpdate d (kv :: rest) = dictUpdate (dictSet d kv.1 kv.2) rest := rfl
    rw [step, ih _ _ h.2, dictGet_dictSet_ne _ _ _ _ h.1]

/-- Reading a key of the update map after the update gives the map's
value (duplicate-free keys). -/
theorem dictGet_dictUpdate_mem (m : List (String × α)) :
    ∀ (d : List (String × α)), ((m.map (fun kv => kv.1)).Nodup) →
    ∀ (k : String) (v : α), dictGet m k = some v →
    dictGet (dictUpdate d m) k = some v := by
  induction m with
  | nil => intro d _ k v h; simp [dictGet] at h
  | cons kv rest ih =>
    intro d hnodup k v h
    obtain ⟨k0, v0⟩ := kv
    simp only [List.map_cons, List.nodup_cons] at hnodup
    have step : dictUpdate d ((k0, v0) :: rest) =
      dictUpdate (dictSet d k0 v0) rest := rfl
    rw [step]
    by_cases hk : k0 = k
    · subst hk
      have hv : v0 = v := by
        unfold dictGet at h
        rw [List.find?_cons_of_pos _ (by simp)] at h
        simpa using h
      subst hv
      rw [dictGet_dictUpdate_not_mem rest _ _ hnodup.1]
      exact dictGet_dictSet_self d k0 v0
    · have hrest : dictGet rest k = some v := by
        unfold dictGet at h ⊢
        rw [List.find?_cons_of_neg _ (by simp only [decide_eq_true_eq]; exact hk)] at h
        exact h
      exact ih (dictSet d k0 v0) hnodup.2 k v hrest

end DictLemmas

/-! ### Flat-filter identities for the load-or-create state machine -/

/-- `_map_query_values` leaves scalar values unchanged. -/
theorem map_query_value_scalar (v : DVal) (hv : v.isScalar = true) :
    map_query_value v = v := by
  cases v <;> first
    | rfl
    | simp [DVal.isScalar] at hv

/-- `_map_query_values` is the identity on an all-scalar filter. -/
theorem map_query_entries_scalar (q : List (String × DVal))
    (hq : ∀ kv ∈ q, DVal.isScalar kv.2 = true) : map_query_entries q = q := by
  induction q with
  | nil => rfl
  | cons kv rest ih =>
    obtain ⟨k, v⟩ := kv
    simp only [map_query_entries]
    rw [map_query_value_scalar v (hq (k, v) (List.mem_cons_self _ _)),
      ih (fun kv hkv => hq kv (List.mem_cons_of_mem _ hkv))]

/-- The `"__"` expansion loop does nothing when no key carries the
separator. -/
theorem restructureFilter_id (keys : List String) (qf : List (String × DVal))
    (hk : ∀ k ∈ keys, splitDunder k.data = none) :
    restructureFilter keys qf = .ok qf := by
  induction keys with
  | nil => rfl
  | cons k rest ih =>
    have h1 := hk k (List.mem_cons_self k rest)
    simp only [restructureFilter, h1]
    exact ih (fun k' hk' => hk k' (List.mem_cons_of_mem _ hk'))

/-- Scalars are not mappings. -/
theorem isMap_eq_false_of_isScalar (v : DVal) (hv : v.isScalar = true) :
    v.isMap = false := by
  cases v <;> first
    | rfl
    | simp [DVal.isScalar] at hv

/-- The child-resolution loop does nothing when no filter value is a
mapping (given enough fuel for the key list). -/
theorem resolveChildren_id (fuel : Nat) (b : Builder) (cls : MClass)
    (keys : List String) (qf fv : List (String × DVal)) (bs : BState)
    (hlen : keys.length ≤ fuel)
    (hv : ∀ k ∈ keys, ∀ v, dictGet qf k = some v → v.isMap = false) :
    resolveChildren fuel b cls keys qf fv bs = .ok (qf, fv, bs) := by
  induction keys generalizing fuel with
  | nil => cases fuel <;> rfl
  | cons k rest ih =>
    cases fuel with
    | zero => simp at hlen
    | succ fuel =>
      have hlen2 : rest.length ≤ fuel := by simpa using hlen
      have hrest : ∀ k2 ∈ rest, ∀ v, dictGet qf k2 = some v → v.isMap = false :=
        fun k2 hk2 => hv k2 (List.mem_cons_of_mem _ hk2)
      simp only [resolveChildren]
      split
      · exact ih fuel hlen2 hrest
      · rename_i v0 heq
        have hm := hv k (List.mem_cons_self k rest) v0 heq
        cases v0 <;> first
          | (exact ih fuel hlen2 hrest)
          | (simp [DVal.isMap] at hm)


/-- C6: for a CREATE_OR_UPDATE node with a flat filter (scalar criteria,
no `"__"` separators, duplicate-free keys): when the lookup by the
resolved criteria finds nothing, the node constructs a fresh unsaved
record with `created_flag` true and the filter criteria folded back into
the field assignments (each criterion readable there, so it is applied to
the new record); when the lookup finds exactly one record, that record
becomes the backing record with `created_flag` false, and the subsequent
`save()` keeps its primary key and adds no record to the store. -/
theorem c6_create_or_update_branches
    (fuel : Nat) (b : Builder) (cls : MClass) (ps : NodeState) (relMgr : String)
    (bs : BState)
    (hact : ps.action = "create_or_update")
    (hflat : ∀ kv ∈ ps.filter, DVal.isScalar kv.2 = true ∧
      splitDunder kv.1.data = none)
    (hnodup : (ps.filter.map (fun kv => kv.1)).Nodup)
    (hfuel : ps.filter.length ≤ fuel) :
    (∀ i0, dbGet bs.db relMgr ps.filter = .doesNotExist →
      constructInstance cls ps.kwargs = .ok i0 →
      load_instance (fuel + 1) b cls ps relMgr bs =
        .ok (⟨cls, dictUpdate ps.attributes ps.filter, ps.custom_fields,
              ps.action, ps.kwargs, true, i0⟩, bs) ∧
      i0.pk = none ∧ i0.adding = true ∧
      (∀ k v, dictGet ps.filter k = some v →
        dictGet (dictUpdate ps.attributes ps.filter) k = some v)) ∧
    (∀ r, dbGet bs.db relMgr ps.filter = .found r →
      load_instance (fuel + 1) b cls ps relMgr bs =
        .ok (⟨cls, ps.attributes, ps.custom_fields, ps.action, ps.kwargs,
              false, r.toInst⟩, bs) ∧
      r.toInst.pk = some r.pk ∧
      (∀ (mi : MInst) (bs2 : BState), mi.action = ps.action →
        mi.inst.pk = some r.pk →
        (mi.save bs2).1.inst.pk = some r.pk ∧
        ((mi.save bs2).2.db.recs.map (fun rc => rc.pk) =
          bs2.db.recs.map (fun rc => rc.pk)))) := by
  have hqv : map_query_values ps.filter = ps.filter :=
    map_query_entries_scalar _ (fun kv hkv => (hflat kv hkv).1)
  have hkeys : ∀ k ∈ ps.filter.map (fun kv => kv.1), splitDunder k.data = none := by
    intro k hk
    obtain ⟨kv, hkv, hke⟩ := List.mem_map.mp hk
    exact hke ▸ (hflat kv hkv).2
  have hrs : restructureFilter (ps.filter.map (fun kv => kv.1)) ps.filter =
      .ok ps.filter := restructureFilter_id _ _ hkeys
  have hlen : (ps.filter.map (fun kv => kv.1)).length ≤ fuel := by
    rw [List.length_map]; exact hfuel
  have hnomap : ∀ k ∈ ps.filter.map (fun kv => kv.1), ∀ v,
      dictGet ps.filter k = some v → v.isMap = false := by
    intro k hk v hv
    unfold dictGet at hv
    obtain ⟨kv, hfind, hsnd⟩ := Option.map_eq_some'.mp hv
    have hkv := List.mem_of_find?_eq_some hfind
    exact hsnd ▸ isMap_eq_false_of_isScalar _ (hflat kv hkv).1
  have hrc : resolveChildren fuel b cls (ps.filter.map (fun kv => kv.1))
      ps.filter ps.filter bs = .ok (ps.filter, ps.filter, bs) :=
    resolveChildren_id fuel b cls _ _ _ _ hlen hnomap
  constructor
  · intro i0 hget hcons
    refine ⟨?_, ?_, ?_, ?_⟩
    · simp only [load_instance, hact, hqv]
      simp only [hrs, hrc, hget, hcons]
      rw [if_neg (by decide), if_pos (by decide), if_neg (by decide)]
    · unfold constructInstance at hcons
      split at hcons
      · injection hcons with h
        rw [← h]
      · simp at hcons
    · unfold constructInstance at hcons
      split at hcons
      · injection hcons with h
        rw [← h]
      · simp at hcons
    · exact fun k v h => dictGet_dictUpdate_mem ps.filter ps.attributes hnodup k v h
  · intro r hget
    refine ⟨?_, rfl, ?_⟩
    · simp only [load_instance, hact, hqv]
      simp only [hrs, hrc, hget]
      rw [if_neg (by decide), if_pos (by decide)]
    · intro mi bs2 hmact hmpk
      have hne : ¬ (mi.action = "get") := by
        rw [hmact, hact]
        decide
      constructor
      · simp [MInst.save, dbSave, hne, hmpk]
      · simp [MInst.save, dbSave, hne, hmpk]
        intro a ha
        by_cases h : a.pk = r.pk <;> simp [h]

/-- A parsed CREATE_OR_UPDATE node: filter `name = "HQ"`, one remaining
field assignment. -/
def demoCouNode : NodeState :=
  ⟨[("status", DVal.str "active")], [], [("name", DVal.str "HQ")],
   "create_or_update", []⟩

/-- Witness for C6 at a concrete node, store and class. -/
theorem c6_create_or_update_witness :
    (∀ i0, dbGet emptyBS.db "Widget" demoCouNode.filter = .doesNotExist →
      constructInstance widgetClass demoCouNode.kwargs = .ok i0 →
      load_instance 6 widgetBuilder widgetClass demoCouNode "Widget" emptyBS =
        .ok (⟨widgetClass, dictUpdate demoCouNode.attributes demoCouNode.filter,
              demoCouNode.custom_fields, demoCouNode.action, demoCouNode.kwargs,
              true, i0⟩, emptyBS) ∧
      i0.pk = none ∧ i0.adding = true ∧
      (∀ k v, dictGet demoCouNode.filter k = some v →
        dictGet (dictUpdate demoCouNode.attributes demoCouNode.filter) k = some v)) ∧
    (∀ r, dbGet emptyBS.db "Widget" demoCouNode.filter = .found r →
      load_instance 6 widgetBuilder widgetClass demoCouNode "Widget" emptyBS =
        .ok (⟨widgetClass, demoCouNode.attributes, demoCouNode.custom_fields,
              demoCouNode.action, demoCouNode.kwargs, false, r.toInst⟩, emptyBS) ∧
      r.toInst.pk = some r.pk ∧
      (∀ (mi : MInst) (bs2 : BState), mi.action = demoCouNode.action →
        mi.inst.pk = some r.pk →
        (mi.save bs2).1.inst.pk = some r.pk ∧
        ((mi.save bs2).2.db.recs.map (fun rc => rc.pk) =
          bs2.db.recs.map (fun rc => rc.pk)))) :=
  c6_create_or_update_branches 5 widgetBuilder widgetClass demoCouNode
    "Widget" emptyBS rfl (by decide) (by decide) (by decide)

end DesignBuilder
